import Mathlib

/-!
Shallow embedding of the reward/feedback computation of
`marble/feedback/feedback_provider.py` (class `FeedbackProvider`), and proofs
of the specified properties of `_calculate_agent_contribution_ratio`,
`_get_latest_scores`, `calculate_agent_rewards`, `sorted_agent_contribution`
and `generate_reward_explanation`.

Modelling choices:
* Python `float` values (scores, ratios, rewards) are modelled as `ℚ`;
  milestone counts (Python `int`) as `ℤ`.
* A Python `dict` is modelled as an insertion-ordered association list;
  `d.get(k, default)`, `k in d` and `d[k] = v` become `dictGet`,
  `dictContains` and `dictInsert` below.  `d[k] = v` updates the existing
  entry in place when the key is present and appends otherwise, exactly as
  in Python.
* `self.evaluator.metrics` is modelled by the `Metrics` structure; a missing
  `"total_milestones"` key is `none`, and the missing-key defaults of the
  `.get` calls in the source are applied in the functions themselves.
* The object state relevant to these functions (`agent_profiles`,
  `evaluator.metrics`, `agent_rewards`) is the `FeedbackProvider` structure;
  methods that mutate `self.agent_rewards` return the updated structure.
-/

namespace MarbleFeedback

abbrev AgentId := String

/-- Python `d.get(k)` on an insertion-ordered dict modelled as an
association list: the value at the first entry whose key is `k`. -/
def dictGet {β : Type} : List (AgentId × β) → AgentId → Option β
  | [], _ => none
  | p :: ps, k => if p.1 = k then some p.2 else dictGet ps k

/-- Python `k in d`. -/
def dictContains {β : Type} (d : List (AgentId × β)) (k : AgentId) : Bool :=
  (dictGet d k).isSome

/-- Python `d[k] = v`: update the entry in place when `k` is present,
append `(k, v)` otherwise. -/
def dictInsert {β : Type} : List (AgentId × β) → AgentId → β → List (AgentId × β)
  | [], k, v => [(k, v)]
  | p :: ps, k, v => if p.1 = k then (k, v) :: ps else p :: dictInsert ps k v

/-- The read-only `self.evaluator.metrics` store consumed by the feedback
engine.  `agent_kpis` defaults to the empty dict when the key is missing, so
a missing key and an empty dict are modelled alike; `total_milestones` keeps
the missing-key case (`none`) because the source gives it a non-constant
default. -/
structure Metrics where
  agent_kpis : List (AgentId × ℤ)
  total_milestones : Option ℤ
  planning_score : List ℚ
  communication_score : List ℚ

/-- The fields of the Python `FeedbackProvider` object that the reward
computation reads or writes. -/
structure FeedbackProvider where
  agent_profiles : List (AgentId × String)
  metrics : Metrics
  agent_rewards : List (AgentId × ℚ)

/-- Weights of the module-level `REWARD_WEIGHTS` dict. -/
structure RewardWeights where
  planning : ℚ
  communication : ℚ
  contribution : ℚ

/-- `REWARD_WEIGHTS = {"planning": 0.4, "communication": 0.3, "contribution": 0.3}`. -/
def REWARD_WEIGHTS : RewardWeights :=
  { planning := 4/10, communication := 3/10, contribution := 3/10 }

/-- `FeedbackProvider._calculate_agent_contribution_ratio`:
`agent_kpis.get(agent_id, 0)` divided by
`metrics.get("total_milestones", agent_milestones)` when that total is
positive, else `0.0`. -/
def calculate_agent_contribution_ratio (m : Metrics) (agent_id : AgentId) : ℚ :=
  let agent_milestones : ℤ := (dictGet m.agent_kpis agent_id).getD 0
  let total_milestones : ℤ := m.total_milestones.getD agent_milestones
  if 0 < total_milestones then (agent_milestones : ℚ) / (total_milestones : ℚ) else 0

/-- `FeedbackProvider._get_latest_scores`: last element of each score list
(default `3.0` when the list is empty), then the sentinel `-1` is replaced
by `0.0`. -/
def get_latest_scores (m : Metrics) : ℚ × ℚ :=
  let latest_planning := m.planning_score.getLast?.getD 3
  let latest_communication := m.communication_score.getLast?.getD 3
  let latest_planning := if latest_planning = -1 then 0 else latest_planning
  let latest_communication := if latest_communication = -1 then 0 else latest_communication
  (latest_planning, latest_communication)

/-- The local `score_normalize_factor = 1.0 / 5.0` of
`calculate_agent_rewards`. -/
def score_normalize_factor : ℚ := 1 / 5

/-- Body of the `for agent_id in self.agent_profiles` loop of
`FeedbackProvider.calculate_agent_rewards`: the clamped reward stored for
one agent (it depends only on the metrics and the agent id). -/
def agent_reward_of (m : Metrics) (agent_id : AgentId) : ℚ :=
  let latest := get_latest_scores m
  let contribution_ratio :=
    if dictContains m.agent_kpis agent_id then
      calculate_agent_contribution_ratio m agent_id
    else 0
  let normalized_planning := latest.1 * score_normalize_factor
  let normalized_communication := latest.2 * score_normalize_factor
  let agent_reward :=
    REWARD_WEIGHTS.planning * normalized_planning
      + REWARD_WEIGHTS.communication * normalized_communication
      + REWARD_WEIGHTS.contribution * contribution_ratio
  max 0 (min 1 agent_reward)

/-- `FeedbackProvider.calculate_agent_rewards`: for each agent of
`agent_profiles`, store the clamped reward in `self.agent_rewards`
(`self.agent_rewards[agent_id] = agent_reward`); the Python return value is
the `agent_rewards` field of the result. -/
def calculate_agent_rewards (fp : FeedbackProvider) : FeedbackProvider :=
  { fp with
    agent_rewards :=
      fp.agent_profiles.foldl
        (fun acc p => dictInsert acc p.1 (agent_reward_of fp.metrics p.1))
        fp.agent_rewards }

/-- The comparison used for the ranking: Python
`sorted(..., key=lambda x: x[1], reverse=True)` orders pairs by descending
second component, keeping the input order of pairs with equal keys. -/
def ratioGE (x y : AgentId × ℚ) : Prop := y.2 ≤ x.2

instance : DecidableRel ratioGE := fun x y => inferInstanceAs (Decidable (y.2 ≤ x.2))

instance : IsTotal (AgentId × ℚ) ratioGE := ⟨fun x y => le_total y.2 x.2⟩

instance : IsTrans (AgentId × ℚ) ratioGE := ⟨fun _ _ _ h1 h2 => le_trans h2 h1⟩

/-- `FeedbackProvider.sorted_agent_contribution`: the dict comprehension
`{agent_id: ratio for agent_id in agent_kpis}` followed by
`sorted(items, key=lambda x: x[1], reverse=True)`, modelled by a stable
insertion sort with respect to `ratioGE`. -/
def sorted_agent_contribution (fp : FeedbackProvider) : List (AgentId × ℚ) :=
  let agent_contribution :=
    fp.metrics.agent_kpis.map
      (fun p => (p.1, calculate_agent_contribution_ratio fp.metrics p.1))
  agent_contribution.insertionSort ratioGE

/-- `FeedbackProvider.generate_reward_explanation`, up to the hand-off to the
external LLM call: when `agent_id` is missing from `self.agent_rewards` the
rewards are recomputed once; when it is still missing, the error string
`f"Agent {agent_id} No or valid data"` is returned (`some msg`); otherwise
the method proceeds to the out-of-scope prompt-filling and LLM call,
modelled as `none`. -/
def generate_reward_explanation (fp : FeedbackProvider) (agent_id : AgentId) :
    FeedbackProvider × Option String :=
  let fp1 :=
    if dictContains fp.agent_rewards agent_id then fp else calculate_agent_rewards fp
  if dictContains fp1.agent_rewards agent_id then
    (fp1, none)
  else
    (fp1, some ("Agent " ++ agent_id ++ " No or valid data"))

/-! ### Dictionary lemmas -/

theorem dictGet_dictInsert {β : Type} (d : List (AgentId × β)) (k a : AgentId) (v : β) :
    dictGet (dictInsert d k v) a = if k = a then some v else dictGet d a := by
  induction d with
  | nil => rfl
  | cons p ps ih =>
    by_cases hpk : p.1 = k
    · by_cases hka : k = a
      · simp [dictInsert, hpk, dictGet, hka]
      · simp [dictInsert, hpk, dictGet, hka]
    · by_cases hpa : p.1 = a
      · have hka : ¬ k = a := fun h => hpk (by rw [hpa, h])
        have hak : ¬ a = k := fun h => hka h.symm
        simp [dictInsert, hpk, dictGet, hpa, hka, hak]
      · simp [dictInsert, hpk, dictGet, hpa, ih]

theorem mem_dictInsert {β : Type} (d : List (AgentId × β)) (k : AgentId) (v : β)
    (x : AgentId × β) (hx : x ∈ dictInsert d k v) : x ∈ d ∨ x = (k, v) := by
  induction d with
  | nil =>
    right
    simpa [dictInsert] using hx
  | cons p ps ih =>
    by_cases hpk : p.1 = k
    · simp only [dictInsert, if_pos hpk, List.mem_cons] at hx
      rcases hx with h | h
      · right; exact h
      · left; exact List.mem_cons_of_mem _ h
    · simp only [dictInsert, if_neg hpk, List.mem_cons] at hx
      rcases hx with h | h
      · left; exact h ▸ List.mem_cons_self _ _
      · rcases ih h with h2 | h2
        · left; exact List.mem_cons_of_mem _ h2
        · right; exact h2

theorem dictInsert_of_dictGet {β : Type} (d : List (AgentId × β)) (k : AgentId) (v : β)
    (h : dictGet d k = some v) : dictInsert d k v = d := by
  induction d with
  | nil => simp [dictGet] at h
  | cons p ps ih =>
    by_cases hpk : p.1 = k
    · have h2 : p.2 = v := by simpa [dictGet, hpk] using h
      simp only [dictInsert, if_pos hpk, ← hpk, ← h2]
      simp
    · have h2 : dictGet ps k = some v := by simpa [dictGet, hpk] using h
      simp [dictInsert, hpk, ih h2]

/-! ### Lemmas about the reward-computation loop -/

theorem dictGet_rewards_foldl (m : Metrics) (l : List (AgentId × String))
    (init : List (AgentId × ℚ)) (a : AgentId) :
    dictGet (l.foldl (fun acc p => dictInsert acc p.1 (agent_reward_of m p.1)) init) a
      = if a ∈ l.map Prod.fst then some (agent_reward_of m a) else dictGet init a := by
  induction l generalizing init with
  | nil => simp
  | cons p l ih =>
    simp only [List.foldl_cons, ih, List.map_cons, List.mem_cons]
    rw [dictGet_dictInsert]
    by_cases hpa : p.1 = a
    · by_cases hl : a ∈ l.map Prod.fst
      · simp [hpa, hl]
      · simp [hpa, hl]
    · have hap : ¬ a = p.1 := fun h => hpa h.symm
      by_cases hl : a ∈ l.map Prod.fst
      · simp [hpa, hl]
      · simp [hpa, hap, hl]

theorem mem_rewards_foldl (m : Metrics) (l : List (AgentId × String))
    (init : List (AgentId × ℚ)) (x : AgentId × ℚ)
    (hx : x ∈ l.foldl (fun acc p => dictInsert acc p.1 (agent_reward_of m p.1)) init) :
    x ∈ init ∨ x.2 = agent_reward_of m x.1 := by
  induction l generalizing init with
  | nil => left; simpa using hx
  | cons p l ih =>
    rcases ih (dictInsert init p.1 (agent_reward_of m p.1)) (by simpa using hx) with h | h
    · rcases mem_dictInsert _ _ _ _ h with h2 | h2
      · left; exact h2
      · right; simp [h2]
    · right; exact h

theorem rewards_foldl_idem (m : Metrics) (l : List (AgentId × String))
    (init : List (AgentId × ℚ))
    (h : ∀ a ∈ l.map Prod.fst, dictGet init a = some (agent_reward_of m a)) :
    l.foldl (fun acc p => dictInsert acc p.1 (agent_reward_of m p.1)) init = init := by
  induction l generalizing init with
  | nil => rfl
  | cons p l ih =>
    have h1 : dictGet init p.1 = some (agent_reward_of m p.1) := h p.1 (by simp)
    simp only [List.foldl_cons, dictInsert_of_dictGet _ _ _ h1]
    exact ih init (fun a ha => h a (by simp [ha]))

theorem ratio_of_not_mem_kpis (m : Metrics) (a : AgentId)
    (h : dictGet m.agent_kpis a = none) :
    calculate_agent_contribution_ratio m a = 0 := by
  unfold calculate_agent_contribution_ratio
  rw [h]
  simp

/-- The loop body written with the claimed closed-form reward: the branch on
`agent_id in agent_kpis` collapses because an agent that is absent from
`agent_kpis` also has contribution ratio `0.0`. -/
theorem agent_reward_of_eq_formula (m : Metrics) (a : AgentId) :
    agent_reward_of m a
      = max 0 (min 1 ((4/10) * ((get_latest_scores m).1 * (1/5))
          + (3/10) * ((get_latest_scores m).2 * (1/5))
          + (3/10) * calculate_agent_contribution_ratio m a)) := by
  unfold agent_reward_of
  by_cases h : dictContains m.agent_kpis a = true
  · simp [h, REWARD_WEIGHTS, score_normalize_factor]
  · have h0 : dictGet m.agent_kpis a = none := by
      cases hg : dictGet m.agent_kpis a with
      | none => rfl
      | some v => simp [dictContains, hg] at h
    simp [h, REWARD_WEIGHTS, score_normalize_factor, ratio_of_not_mem_kpis m a h0]

/-! ### Claims -/

/-- C1: for every roster and metrics snapshot, `calculate_agent_rewards`
produces an entry for each agent of the roster (also agents absent from
`agent_kpis`), and that entry is
`clamp(0.4 * normalized_planning + 0.3 * normalized_communication
+ 0.3 * contribution_ratio(agent_id), 0.0, 1.0)`, where the planning and
communication terms are the same team-level values for every agent and only
the contribution term depends on the agent; the computation is total. -/
theorem C1_reward_aggregator (profiles : List (AgentId × String)) (m : Metrics)
    (a : AgentId) (h : a ∈ profiles.map Prod.fst) :
    dictGet (calculate_agent_rewards
        { agent_profiles := profiles, metrics := m, agent_rewards := [] }).agent_rewards a
      = some (max 0 (min 1 ((4/10) * ((get_latest_scores m).1 * (1/5))
          + (3/10) * ((get_latest_scores m).2 * (1/5))
          + (3/10) * calculate_agent_contribution_ratio m a))) := by
  show dictGet (profiles.foldl
      (fun acc p => dictInsert acc p.1 (agent_reward_of m p.1)) []) a = _
  rw [dictGet_rewards_foldl, if_pos h, agent_reward_of_eq_formula]

theorem C1_reward_aggregator_witness :
    ("A" : AgentId) ∈ ([(("A" : AgentId), "dev")]).map Prod.fst
  ∧ dictGet (calculate_agent_rewards
        { agent_profiles := [("A", "dev")],
          metrics := { agent_kpis := [], total_milestones := none,
                       planning_score := [], communication_score := [] },
          agent_rewards := [] }).agent_rewards "A"
      = some (max 0 (min 1 ((4/10) * ((get_latest_scores
            { agent_kpis := [], total_milestones := none,
              planning_score := [], communication_score := [] }).1 * (1/5))
          + (3/10) * ((get_latest_scores
            { agent_kpis := [], total_milestones := none,
              planning_score := [], communication_score := [] }).2 * (1/5))
          + (3/10) * calculate_agent_contribution_ratio
            { agent_kpis := [], total_milestones := none,
              planning_score := [], communication_score := [] } "A"))) :=
  ⟨by simp,
   C1_reward_aggregator [("A", "dev")]
     { agent_kpis := [], total_milestones := none,
       planning_score := [], communication_score := [] } "A" (by simp)⟩

/-- C2: every reward value stored by `calculate_agent_rewards` lies in the
closed interval `[0, 1]`, for every roster and metrics snapshot, however
extreme the scores or milestone counts are. -/
theorem C2_rewards_clamped (profiles : List (AgentId × String)) (m : Metrics)
    (a : AgentId) (r : ℚ)
    (h : (a, r) ∈ (calculate_agent_rewards
        { agent_profiles := profiles, metrics := m, agent_rewards := [] }).agent_rewards) :
    0 ≤ r ∧ r ≤ 1 := by
  have h2 : (a, r) ∈ profiles.foldl
      (fun acc p => dictInsert acc p.1 (agent_reward_of m p.1)) [] := h
  rcases mem_rewards_foldl m profiles [] (a, r) h2 with h3 | h3
  · simp at h3
  · rw [show r = (a, r).2 from rfl, h3]
    unfold agent_reward_of
    refine ⟨le_max_left _ _, max_le (by norm_num) (min_le_left _ _)⟩

theorem C2_rewards_clamped_witness :
    (("A" : AgentId), (28/100 : ℚ)) ∈ (calculate_agent_rewards
        { agent_profiles := [("A", "dev")],
          metrics := { agent_kpis := [("A", 1)], total_milestones := some 0,
                       planning_score := [2], communication_score := [2] },
          agent_rewards := [] }).agent_rewards
  ∧ (0 ≤ (28/100 : ℚ) ∧ (28/100 : ℚ) ≤ 1) := by
  have hmem : (("A" : AgentId), (28/100 : ℚ)) ∈ (calculate_agent_rewards
      { agent_profiles := [("A", "dev")],
        metrics := { agent_kpis := [("A", 1)], total_milestones := some 0,
                     planning_score := [2], communication_score := [2] },
        agent_rewards := [] }).agent_rewards := by
    simp +decide [calculate_agent_rewards, agent_reward_of, dictInsert, dictContains, dictGet,
      get_latest_scores, calculate_agent_contribution_ratio, REWARD_WEIGHTS,
      score_normalize_factor]
    norm_num
  exact ⟨hmem, C2_rewards_clamped _ _ _ _ hmem⟩

/-- C3: score normalization takes the last element of each score sequence
(raw default 3.0 when it is empty); a latest value equal to the sentinel -1
becomes raw 0.0 (not a negative value and not the empty-sequence default);
the raw value is multiplied by 1/5, so both-empty sequences give normalized
scores of exactly 0.6 and the sentinel gives exactly 0.0; the operation is a
pure total function. -/
theorem C3_score_normalizer (m : Metrics) :
    (m.planning_score = [] → (get_latest_scores m).1 = 3)
  ∧ (m.communication_score = [] → (get_latest_scores m).2 = 3)
  ∧ (m.planning_score.getLast? = some (-1) → (get_latest_scores m).1 = 0)
  ∧ (m.communication_score.getLast? = some (-1) → (get_latest_scores m).2 = 0)
  ∧ (∀ x : ℚ, x ≠ -1 → m.planning_score.getLast? = some x → (get_latest_scores m).1 = x)
  ∧ (∀ x : ℚ, x ≠ -1 → m.communication_score.getLast? = some x → (get_latest_scores m).2 = x)
  ∧ (m.planning_score = [] → m.communication_score = [] →
      (get_latest_scores m).1 * score_normalize_factor = 6/10
        ∧ (get_latest_scores m).2 * score_normalize_factor = 6/10)
  ∧ (m.planning_score.getLast? = some (-1) →
      (get_latest_scores m).1 * score_normalize_factor = 0)
  ∧ (m.communication_score.getLast? = some (-1) →
      (get_latest_scores m).2 * score_normalize_factor = 0) := by
  refine ⟨?_, ?_, ?_, ?_, ?_, ?_, ?_, ?_, ?_⟩
  · intro h; norm_num [get_latest_scores, h]
  · intro h; norm_num [get_latest_scores, h]
  · intro h; simp [get_latest_scores, h]
  · intro h; simp [get_latest_scores, h]
  · intro x hx h; simp [get_latest_scores, h, hx]
  · intro x hx h; simp [get_latest_scores, h, hx]
  · intro h1 h2; norm_num [get_latest_scores, h1, h2, score_normalize_factor]
  · intro h; simp [get_latest_scores, h, score_normalize_factor]
  · intro h; simp [get_latest_scores, h, score_normalize_factor]

def C3_metrics_empty : Metrics :=
  { agent_kpis := [], total_milestones := none,
    planning_score := [], communication_score := [] }

def C3_metrics_mixed : Metrics :=
  { agent_kpis := [], total_milestones := none,
    planning_score := [2, 4], communication_score := [5, -1] }

theorem C3_score_normalizer_witness :
    (get_latest_scores C3_metrics_empty).1 = 3
  ∧ (get_latest_scores C3_metrics_empty).2 = 3
  ∧ (get_latest_scores C3_metrics_empty).1 * score_normalize_factor = 6/10
  ∧ (get_latest_scores C3_metrics_empty).2 * score_normalize_factor = 6/10
  ∧ (get_latest_scores C3_metrics_mixed).1 = 4
  ∧ (get_latest_scores C3_metrics_mixed).2 = 0
  ∧ (get_latest_scores C3_metrics_mixed).2 * score_normalize_factor = 0 :=
  ⟨(C3_score_normalizer C3_metrics_empty).1 rfl,
   (C3_score_normalizer C3_metrics_empty).2.1 rfl,
   ((C3_score_normalizer C3_metrics_empty).2.2.2.2.2.2.1 rfl rfl).1,
   ((C3_score_normalizer C3_metrics_empty).2.2.2.2.2.2.1 rfl rfl).2,
   (C3_score_normalizer C3_metrics_mixed).2.2.2.2.1 4 (by norm_num) rfl,
   (C3_score_normalizer C3_metrics_mixed).2.2.2.1 rfl,
   (C3_score_normalizer C3_metrics_mixed).2.2.2.2.2.2.2.2 rfl⟩

/-- C4: when the snapshot contains a total_milestones entry, the contribution
ratio is the agent's own count (0 when absent) divided by the total when the
total is positive, and 0.0 otherwise; in particular a zero total gives 0.0
for every agent, an absent agent gives 0.0, and no error path exists (the
function is total, the zero denominator is excluded by the guard). -/
theorem C4_contribution_calculator (m : Metrics) (t : ℤ)
    (h : m.total_milestones = some t) (a : AgentId) :
    (calculate_agent_contribution_ratio m a
        = if 0 < t then (((dictGet m.agent_kpis a).getD 0 : ℤ) : ℚ) / (t : ℚ) else 0)
  ∧ (t = 0 → calculate_agent_contribution_ratio m a = 0)
  ∧ (dictGet m.agent_kpis a = none → calculate_agent_contribution_ratio m a = 0) := by
  refine ⟨?_, ?_, ?_⟩
  · unfold calculate_agent_contribution_ratio
    rw [h]
    simp
  · intro ht
    subst ht
    unfold calculate_agent_contribution_ratio
    rw [h]
    simp
  · intro h0
    exact ratio_of_not_mem_kpis m a h0

def C4_metrics : Metrics :=
  { agent_kpis := [("A", 2)], total_milestones := some 4,
    planning_score := [], communication_score := [] }

def C4_metrics_zero : Metrics :=
  { agent_kpis := [("A", 2)], total_milestones := some 0,
    planning_score := [], communication_score := [] }

theorem C4_contribution_calculator_witness :
    C4_metrics.total_milestones = some 4
  ∧ calculate_agent_contribution_ratio C4_metrics "A"
      = (if (0:ℤ) < 4 then (((dictGet C4_metrics.agent_kpis "A").getD 0 : ℤ) : ℚ) / ((4:ℤ) : ℚ) else 0)
  ∧ calculate_agent_contribution_ratio C4_metrics_zero "A" = 0
  ∧ calculate_agent_contribution_ratio C4_metrics "B" = 0 :=
  ⟨rfl,
   (C4_contribution_calculator C4_metrics 4 rfl "A").1,
   (C4_contribution_calculator C4_metrics_zero 0 rfl "A").2.1 rfl,
   (C4_contribution_calculator C4_metrics 4 rfl "B").2.2 rfl⟩

/-- C9: when the snapshot has no total_milestones entry, the denominator
defaults to the queried agent's own milestone count, so an agent with a
positive count gets contribution ratio exactly 1.0 and an agent with count 0
or with no entry gets 0.0. -/
theorem C9_missing_total (m : Metrics) (h : m.total_milestones = none) (a : AgentId) :
    (∀ k : ℤ, dictGet m.agent_kpis a = some k → 0 < k →
        calculate_agent_contribution_ratio m a = 1)
  ∧ (dictGet m.agent_kpis a = some 0 → calculate_agent_contribution_ratio m a = 0)
  ∧ (dictGet m.agent_kpis a = none → calculate_agent_contribution_ratio m a = 0) := by
  refine ⟨?_, ?_, ?_⟩
  · intro k hk hpos
    have hk0 : (k : ℚ) ≠ 0 := by exact_mod_cast hpos.ne'
    unfold calculate_agent_contribution_ratio
    rw [hk, h]
    simp [hpos, div_self hk0]
  · intro hk
    unfold calculate_agent_contribution_ratio
    rw [hk, h]
    simp
  · intro hk
    exact ratio_of_not_mem_kpis m a hk

def C9_metrics : Metrics :=
  { agent_kpis := [("A", 2), ("B", 0)], total_milestones := none,
    planning_score := [], communication_score := [] }

theorem C9_missing_total_witness :
    C9_metrics.total_milestones = none
  ∧ calculate_agent_contribution_ratio C9_metrics "A" = 1
  ∧ calculate_agent_contribution_ratio C9_metrics "B" = 0
  ∧ calculate_agent_contribution_ratio C9_metrics "C" = 0 :=
  ⟨rfl,
   (C9_missing_total C9_metrics rfl "A").1 2 rfl (by norm_num),
   (C9_missing_total C9_metrics rfl "B").2.1 rfl,
   (C9_missing_total C9_metrics rfl "C").2.2 rfl⟩

/-! ### Stability of the descending ranking sort -/

theorem filter_orderedInsert_eq_ratio (c : ℚ) (x : AgentId × ℚ) (hx : x.2 = c)
    (l : List (AgentId × ℚ)) :
    (l.orderedInsert ratioGE x).filter (fun p => p.2 = c)
      = x :: l.filter (fun p => p.2 = c) := by
  induction l with
  | nil => simp [List.orderedInsert, hx]
  | cons y ys ih =>
    by_cases hr : ratioGE x y
    · simp [List.orderedInsert, hr, hx]
    · have hyc : ¬ y.2 = c := by
        intro hcontra
        exact hr (le_of_eq (by rw [hcontra, hx]))
      simp [List.orderedInsert, hr, hyc, ih]

theorem filter_orderedInsert_ne_ratio (c : ℚ) (x : AgentId × ℚ) (hx : ¬ x.2 = c)
    (l : List (AgentId × ℚ)) :
    (l.orderedInsert ratioGE x).filter (fun p => p.2 = c)
      = l.filter (fun p => p.2 = c) := by
  induction l with
  | nil => simp [List.orderedInsert, hx]
  | cons y ys ih =>
    by_cases hr : ratioGE x y
    · simp [List.orderedInsert, hr, hx]
    · rw [List.orderedInsert, if_neg hr]
      simp only [List.filter_cons, ih]

theorem filter_insertionSort_ratio (c : ℚ) (l : List (AgentId × ℚ)) :
    (l.insertionSort ratioGE).filter (fun p => p.2 = c)
      = l.filter (fun p => p.2 = c) := by
  induction l with
  | nil => simp
  | cons x xs ih =>
    by_cases hx : x.2 = c
    · rw [List.insertionSort, filter_orderedInsert_eq_ratio c x hx, ih]
      simp [hx]
    · rw [List.insertionSort, filter_orderedInsert_ne_ratio c x hx, ih]
      simp [hx]

/-- C5: the contribution ranking carries exactly the agents present in
agent_kpis (agents outside it are excluded even when they are in the
roster), is sorted by ratio in descending order, and the sort is stable:
restricted to any fixed ratio value, the ranking lists the pairs in the
agent_kpis iteration order; the operation is a pure total function. -/
theorem C5_contribution_ranking (fp : FeedbackProvider) :
    ((sorted_agent_contribution fp).map Prod.fst).Perm
        (fp.metrics.agent_kpis.map Prod.fst)
  ∧ (sorted_agent_contribution fp).Pairwise (fun x y => y.2 ≤ x.2)
  ∧ (∀ c : ℚ,
      (sorted_agent_contribution fp).filter (fun p => p.2 = c)
        = (fp.metrics.agent_kpis.map
            (fun p => (p.1, calculate_agent_contribution_ratio fp.metrics p.1))).filter
            (fun p => p.2 = c)) := by
  refine ⟨?_, ?_, ?_⟩
  · have h1 := (List.perm_insertionSort ratioGE
      (fp.metrics.agent_kpis.map
        (fun p => (p.1, calculate_agent_contribution_ratio fp.metrics p.1)))).map Prod.fst
    rw [List.map_map] at h1
    exact h1
  · exact List.sorted_insertionSort ratioGE _
  · intro c
    exact filter_insertionSort_ratio c _

/-- C6 counterexample: an empty roster does not make the ranking empty; the
ranking is derived from agent_kpis alone, so with an empty roster and
agent_kpis containing one agent the ranking still has one entry. -/
theorem C6_empty_roster_counterexample :
    (sorted_agent_contribution
        { agent_profiles := [],
          metrics := { agent_kpis := [("A", 1)], total_milestones := some 1,
                       planning_score := [], communication_score := [] },
          agent_rewards := [] } = []) = False := by
  refine eq_false ?_
  intro h
  rw [show sorted_agent_contribution
      { agent_profiles := [],
        metrics := { agent_kpis := [("A", 1)], total_milestones := some 1,
                     planning_score := [], communication_score := [] },
        agent_rewards := [] }
      = [("A", (1:ℚ))] from by
    simp +decide [sorted_agent_contribution, List.insertionSort, List.orderedInsert,
      calculate_agent_contribution_ratio, dictGet]] at h
  simp at h

/-- C6 (amended): with an empty roster the computed reward mapping is empty
and no division error occurs; the contribution ranking, however, is derived
from agent_kpis rather than from the roster, so it is empty exactly when
agent_kpis is empty, not whenever the roster is empty. -/
theorem C6_empty_roster (m : Metrics) :
    (calculate_agent_rewards
        { agent_profiles := [], metrics := m, agent_rewards := [] }).agent_rewards = []
  ∧ (sorted_agent_contribution
        { agent_profiles := [], metrics := m, agent_rewards := [] } = []
      ↔ m.agent_kpis = []) := by
  constructor
  · rfl
  · constructor
    · intro h
      have h2 : (m.agent_kpis.map
          (fun p => (p.1, calculate_agent_contribution_ratio m p.1))).insertionSort
            ratioGE = [] := h
      have hperm := List.perm_insertionSort ratioGE
        (m.agent_kpis.map (fun p => (p.1, calculate_agent_contribution_ratio m p.1)))
      rw [h2] at hperm
      have h3 := hperm.symm.eq_nil
      simpa using h3
    · intro h
      show (List.map _ m.agent_kpis).insertionSort ratioGE = []
      rw [h]
      rfl

def metrics_no_data : Metrics :=
  { agent_kpis := [], total_milestones := none,
    planning_score := [], communication_score := [] }

theorem C6_empty_roster_witness :
    (calculate_agent_rewards
        { agent_profiles := [], metrics := metrics_no_data, agent_rewards := [] }).agent_rewards = []
  ∧ sorted_agent_contribution
      { agent_profiles := [], metrics := metrics_no_data, agent_rewards := [] } = [] :=
  ⟨(C6_empty_roster metrics_no_data).1, (C6_empty_roster metrics_no_data).2.mpr rfl⟩

def C7_metrics : Metrics :=
  { agent_kpis := [("A", 3)], total_milestones := some (-1),
    planning_score := [4], communication_score := [4] }

/-- C7 counterexample: with total_milestones = -1 no fault is surfaced; the
guard silently yields contribution ratio 0.0 and the engine produces an
ordinary clamped reward (0.4*0.8 + 0.3*0.8 + 0.3*0 = 0.56). -/
theorem C7_fail_fast_counterexample :
    calculate_agent_contribution_ratio C7_metrics "A" = 0
  ∧ (calculate_agent_rewards
      { agent_profiles := [("A", "dev")], metrics := C7_metrics,
        agent_rewards := [] }).agent_rewards = [("A", 14/25)] := by
  constructor
  · rfl
  · show dictInsert [] "A" (agent_reward_of C7_metrics "A") = [("A", 14/25)]
    rw [show agent_reward_of C7_metrics "A" = 14/25 from by
      simp +decide [agent_reward_of, C7_metrics, dictContains, dictGet, get_latest_scores,
        calculate_agent_contribution_ratio, REWARD_WEIGHTS, score_normalize_factor]
      norm_num]
    rfl

/-- C7 (amended): a snapshot with total_milestones < 0 is not surfaced as a
fault: the guard total_milestones > 0 fails, the contribution ratio is
silently 0.0 for every agent (the same value as in the total_milestones = 0
case), and reward computation proceeds normally from it. -/
theorem C7_negative_total_silent (m : Metrics) (t : ℤ)
    (h : m.total_milestones = some t) (ht : t < 0) (a : AgentId) :
    calculate_agent_contribution_ratio m a = 0 := by
  have hneg : ¬ (0:ℤ) < t := by omega
  unfold calculate_agent_contribution_ratio
  rw [h]
  simp [hneg]

theorem C7_negative_total_silent_witness :
    C7_metrics.total_milestones = some (-1)
  ∧ ((-1 : ℤ) < 0)
  ∧ calculate_agent_contribution_ratio C7_metrics "A" = 0 :=
  ⟨rfl, by norm_num,
   C7_negative_total_silent C7_metrics (-1) rfl (by norm_num) "A"⟩

/-- C8: invoking the engine twice on an identical snapshot and roster yields
identical results: the reward mapping returned by the second
calculate_agent_rewards call equals the first one, and the ranking computed
after those calls equals the ranking computed before them — there is no
hidden state drift. -/
theorem C8_idempotent (profiles : List (AgentId × String)) (m : Metrics) :
    (calculate_agent_rewards (calculate_agent_rewards
        { agent_profiles := profiles, metrics := m, agent_rewards := [] })).agent_rewards
      = (calculate_agent_rewards
        { agent_profiles := profiles, metrics := m, agent_rewards := [] }).agent_rewards
  ∧ sorted_agent_contribution (calculate_agent_rewards
        { agent_profiles := profiles, metrics := m, agent_rewards := [] })
      = sorted_agent_contribution
        { agent_profiles := profiles, metrics := m, agent_rewards := [] } := by
  constructor
  · show profiles.foldl (fun acc p => dictInsert acc p.1 (agent_reward_of m p.1))
        (profiles.foldl (fun acc p => dictInsert acc p.1 (agent_reward_of m p.1)) [])
      = profiles.foldl (fun acc p => dictInsert acc p.1 (agent_reward_of m p.1)) []
    apply rewards_foldl_idem
    intro a ha
    rw [dictGet_rewards_foldl, if_pos ha]
  · rfl

/-- C10: for an agent absent from the roster, generate_reward_explanation
never raises: the rewards are recomputed once, the agent is still absent,
the stored error string is returned instead of an exception, and the stored
reward mapping afterwards covers exactly the roster. -/
theorem C10_explanation_missing_agent (fp : FeedbackProvider) (agent_id : AgentId)
    (hroster : agent_id ∉ fp.agent_profiles.map Prod.fst)
    (hsub : ∀ a : AgentId, dictContains fp.agent_rewards a = true →
        a ∈ fp.agent_profiles.map Prod.fst) :
    (generate_reward_explanation fp agent_id).2
      = some ("Agent " ++ agent_id ++ " No or valid data")
  ∧ ∀ a : AgentId,
      (dictContains (generate_reward_explanation fp agent_id).1.agent_rewards a = true
        ↔ a ∈ fp.agent_profiles.map Prod.fst) := by
  have h0 : dictContains fp.agent_rewards agent_id = false := by
    cases hc : dictContains fp.agent_rewards agent_id
    · rfl
    · exact absurd (hsub _ hc) hroster
  have hcontains : ∀ a : AgentId,
      dictContains (calculate_agent_rewards fp).agent_rewards a = true
        ↔ a ∈ fp.agent_profiles.map Prod.fst := by
    intro a
    show (dictGet (fp.agent_profiles.foldl
        (fun acc p => dictInsert acc p.1 (agent_reward_of fp.metrics p.1))
        fp.agent_rewards) a).isSome = true ↔ _
    rw [dictGet_rewards_foldl]
    by_cases hmem : a ∈ fp.agent_profiles.map Prod.fst
    · simp [hmem]
    · simp only [if_neg hmem]
      constructor
      · intro hsome
        exact absurd (hsub a hsome) hmem
      · intro hm
        exact absurd hm hmem
  have h2 : dictContains (calculate_agent_rewards fp).agent_rewards agent_id = false := by
    cases hc : dictContains (calculate_agent_rewards fp).agent_rewards agent_id
    · rfl
    · exact absurd ((hcontains agent_id).mp hc) hroster
  constructor
  · unfold generate_reward_explanation
    simp [h0, h2]
  · intro a
    unfold generate_reward_explanation
    simp only [h0, Bool.false_eq_true, if_false, h2]
    exact hcontains a

theorem C10_explanation_missing_agent_witness :
    (("B" : AgentId) ∉ ([(("A" : AgentId), "dev")]).map Prod.fst)
  ∧ (generate_reward_explanation
      { agent_profiles := [("A", "dev")], metrics := metrics_no_data,
        agent_rewards := [] } "B").2
      = some ("Agent " ++ "B" ++ " No or valid data")
  ∧ (dictContains (generate_reward_explanation
        { agent_profiles := [("A", "dev")], metrics := metrics_no_data,
          agent_rewards := [] } "B").1.agent_rewards "A" = true
        ↔ "A" ∈ ([(("A" : AgentId), "dev")]).map Prod.fst)
  ∧ (dictContains (generate_reward_explanation
        { agent_profiles := [("A", "dev")], metrics := metrics_no_data,
          agent_rewards := [] } "B").1.agent_rewards "B" = true
        ↔ "B" ∈ ([(("A" : AgentId), "dev")]).map Prod.fst) := by
  have h := C10_explanation_missing_agent
    { agent_profiles := [("A", "dev")], metrics := metrics_no_data, agent_rewards := [] }
    "B" (by simp) (by intro a ha; simp [dictContains, dictGet] at ha)
  exact ⟨by simp, h.1, h.2 "A", h.2 "B"⟩

end MarbleFeedback
